/-
Verification of the community-board data-access layer
(netlify/functions/community/index.cjs) against its design document.

The Redis keyspace used by the handlers is modelled as a `Store` record:
  - `community:posts`                : ordered list  (field `posts`)
  - `community:post:{id}`            : hash          (field `postRecord`)
  - `user:{uid}:posts`               : ordered list  (field `userPosts`)
  - `community:category:{c}`         : set           (field `categoryIdx`)
  - `community:tag:{t}`              : set           (field `tagIdx`)
  - `community:post:{id}:likes`      : set           (field `postLikes`)
  - `community:post:{id}:comments`   : ordered list  (field `postComments`)
  - `community:comment:{id}`         : hash          (field `commentRecord`)
  - `community:comment:{id}:likes`   : set           (field `commentLikes`)
  - `user:{uid}:comments`            : ordered list  (field `userComments`)
  - `user:{uid}:bookmarks`           : set           (field `userBookmarks`)
Redis sets are modelled as duplicate-free lists with `sadd`/`srem`;
`lpush` prepends, `lrange 0 -1` reads head-first, `lrem 0 v` removes all
occurrences, and `del` on a set/list key leaves the empty collection.
Each handler is a pure function `Store → args → Store × Except ApiError α`;
error branches return the input store unchanged, exactly as the source
returns its 4xx response before issuing any write.
-/
import Mathlib

namespace CommunityBoard

/-- Redis SADD on a duplicate-free list model of a set. -/
def sadd (s : List String) (x : String) : List String :=
  if x ∈ s then s else x :: s

/-- Redis SREM: removes the member if present. -/
def srem (s : List String) (x : String) : List String :=
  s.filter (fun y => y ≠ x)

/-- Redis LPUSH: prepends to the list. -/
def lpush (l : List String) (x : String) : List String := x :: l

/-- Redis LREM with count 0: removes all occurrences of the value. -/
def lremAll (l : List String) (x : String) : List String :=
  l.filter (fun y => y ≠ x)

/-- Pointwise update of a key-indexed family (one Redis key rewritten). -/
def upd {α : Type} (f : String → α) (k : String) (v : α) : String → α :=
  fun x => if x = k then v else f x

/-- JavaScript string truthiness for an optional request field:
`undefined` and the empty string are both falsy. -/
def truthy : Option String → Option String
  | some t => if t = "" then none else some t
  | none => none

/-- The `community:post:{id}` hash, with `tags` kept in parsed form
(the source stores `JSON.stringify(tags)` and parses it on every read). -/
structure Post where
  id : String
  title : String
  content : String
  category : String
  tags : List String
  authorId : String
  authorName : String
  createdAt : String
  updatedAt : String
deriving DecidableEq, Repr

/-- The `community:comment:{id}` hash. -/
structure Comment where
  id : String
  postId : String
  content : String
  authorId : String
  authorName : String
  createdAt : String
deriving DecidableEq, Repr

/-- The profile record consulted for display name and role. -/
structure User where
  name : String
  username : String
  role : String
deriving DecidableEq, Repr

/-- The slice of the Redis keyspace the community handlers touch. -/
structure Store where
  posts : List String
  postRecord : String → Option Post
  userPosts : String → List String
  categoryIdx : String → List String
  tagIdx : String → List String
  postLikes : String → List String
  postComments : String → List String
  commentRecord : String → Option Comment
  commentLikes : String → List String
  userComments : String → List String
  userBookmarks : String → List String

/-- Error taxonomy of the handlers (HTTP 404 / 403 / 400). -/
inductive ApiError where
  | notFound
  | forbidden
  | validationFailed
deriving DecidableEq, Repr

/-- `user.name || user.username || 'Anonymous'`. -/
def displayName (u : User) : String :=
  if u.name ≠ "" then u.name
  else if u.username ≠ "" then u.username
  else "Anonymous"

/-- `for (const tag of tags) await redis.sadd('community:tag:'+tag, postId)`. -/
def addTags (idx : String → List String) (postId : String) :
    List String → (String → List String)
  | [] => idx
  | t :: ts => addTags (upd idx t (sadd (idx t) postId)) postId ts

/-- `for (const tag of tags) await redis.srem('community:tag:'+tag, postId)`. -/
def remTags (idx : String → List String) (postId : String) :
    List String → (String → List String)
  | [] => idx
  | t :: ts => remTags (upd idx t (srem (idx t) postId)) postId ts

/-- Body of a POST /community request (`category` and `tags` destructure
with defaults `'discussion'` and `[]`). -/
structure CreatePostReq where
  title : String
  content : String
  category : Option String
  tags : List String
deriving Repr

/-- A post as returned to the client: the hash fields plus the derived
like and comment counts. -/
structure PostView where
  post : Post
  likes : Nat
  comments : Nat
deriving DecidableEq, Repr

/-- `handleGetPost`: 404 when the hash is missing, otherwise the record
with like count = SCARD of the likes set and comment count = LLEN of the
comments list. -/
def handleGetPost (s : Store) (postId : String) : Except ApiError PostView :=
  match s.postRecord postId with
  | none => .error .notFound
  | some p =>
      .ok { post := p
            likes := (s.postLikes postId).length
            comments := (s.postComments postId).length }

/-- `handleCreatePost`: reject empty (falsy) title or content with 400,
otherwise write the hash, LPUSH onto the global and author lists, SADD
into the category set and each tag set.  `postId` stands for the fresh
`nanoid()` and `now` for `new Date().toISOString()`. -/
def handleCreatePost (s : Store) (userId : String) (user : User)
    (postId now : String) (req : CreatePostReq) :
    Store × Except ApiError PostView :=
  if req.title = "" ∨ req.content = "" then
    (s, .error .validationFailed)
  else
    let category := req.category.getD "discussion"
    let post : Post :=
      { id := postId, title := req.title, content := req.content
        category := category, tags := req.tags
        authorId := userId, authorName := displayName user
        createdAt := now, updatedAt := now }
    let s1 := { s with postRecord := upd s.postRecord postId (some post) }
    let s2 := { s1 with posts := lpush s1.posts postId }
    let s3 := { s2 with
      userPosts := upd s2.userPosts userId (lpush (s2.userPosts userId) postId) }
    let s4 := { s3 with
      categoryIdx := upd s3.categoryIdx category (sadd (s3.categoryIdx category) postId) }
    let s5 := { s4 with tagIdx := addTags s4.tagIdx postId req.tags }
    (s5, .ok { post := post, likes := 0, comments := 0 })

/-- `handleDeletePost`: 404 when missing, 403 unless caller is the author
or has role `admin`; otherwise delete the hash, LREM from the global and
author lists, SREM from the stored category set and each stored tag set,
delete the likes set and comments list, and SREM the id from every
`user:*:bookmarks` set found by the KEYS scan. -/
def handleDeletePost (s : Store) (postId userId : String) (user : User) :
    Store × Except ApiError Unit :=
  match s.postRecord postId with
  | none => (s, .error .notFound)
  | some p =>
    if p.authorId ≠ userId ∧ user.role ≠ "admin" then
      (s, .error .forbidden)
    else
      let s1 := { s with postRecord := upd s.postRecord postId none }
      let s2 := { s1 with posts := lremAll s1.posts postId }
      let s3 := { s2 with
        userPosts := upd s2.userPosts p.authorId (lremAll (s2.userPosts p.authorId) postId) }
      let s4 := { s3 with
        categoryIdx := upd s3.categoryIdx p.category (srem (s3.categoryIdx p.category) postId) }
      let s5 := { s4 with tagIdx := remTags s4.tagIdx postId p.tags }
      let s6 := { s5 with postLikes := upd s5.postLikes postId [] }
      let s7 := { s6 with postComments := upd s6.postComments postId [] }
      let s8 := { s7 with userBookmarks := fun u => srem (s7.userBookmarks u) postId }
      (s8, .ok ())

/-- Body of a PUT /community/{id} request; each field is absent or a
string (and the source tests each with JavaScript truthiness). -/
structure UpdatePostReq where
  title : Option String
  content : Option String
  category : Option String
  tags : Option (List String)
deriving Repr

/-- `handleUpdatePost`: 404 / 403 checks first; then overwrite title and
content only when truthy, move the id between category sets only when a
truthy different category is given, re-index tags when a tags array is
given, refresh `updatedAt`, and HSET the merged record back. -/
def handleUpdatePost (s : Store) (postId userId : String) (user : User)
    (now : String) (req : UpdatePostReq) :
    Store × Except ApiError PostView :=
  match s.postRecord postId with
  | none => (s, .error .notFound)
  | some p =>
    if p.authorId ≠ userId ∧ user.role ≠ "admin" then
      (s, .error .forbidden)
    else
      let u0 := { p with updatedAt := now }
      let u1 := match truthy req.title with
        | some t => { u0 with title := t }
        | none => u0
      let u2 := match truthy req.content with
        | some c => { u1 with content := c }
        | none => u1
      let catStep : Store × Post :=
        match truthy req.category with
        | some c =>
          if c = p.category then (s, u2)
          else
            let idx1 := upd s.categoryIdx p.category (srem (s.categoryIdx p.category) postId)
            let idx2 := upd idx1 c (sadd (idx1 c) postId)
            ({ s with categoryIdx := idx2 }, { u2 with category := c })
        | none => (s, u2)
      let tagStep : Store × Post :=
        match req.tags with
        | some ts =>
          let idx1 := remTags catStep.1.tagIdx postId p.tags
          let idx2 := addTags idx1 postId ts
          ({ catStep.1 with tagIdx := idx2 }, { catStep.2 with tags := ts })
        | none => catStep
      let s3 := { tagStep.1 with
        postRecord := upd tagStep.1.postRecord postId (some tagStep.2) }
      (s3, .ok { post := tagStep.2
                 likes := (s3.postLikes postId).length
                 comments := (s3.postComments postId).length })

/-- A comment as returned to the client: the hash plus derived like count. -/
structure CommentView where
  comment : Comment
  likes : Nat
deriving DecidableEq, Repr

/-- `handleGetComments`: 404 when the post hash is missing; otherwise
LRANGE the comment-id list head-first, fetch each comment hash, drop ids
whose hash is missing, and attach the derived like count. -/
def handleGetComments (s : Store) (postId : String) :
    Except ApiError (List CommentView) :=
  match s.postRecord postId with
  | none => .error .notFound
  | some _ =>
    .ok ((s.postComments postId).filterMap fun cid =>
      (s.commentRecord cid).map fun c =>
        { comment := c, likes := (s.commentLikes cid).length })

/-- `handleCreateComment`: 404 when the post is missing, 400 on empty
(falsy) content; otherwise write the comment hash and LPUSH its id onto
the post's comment list and the author's comment list. -/
def handleCreateComment (s : Store) (postId userId : String) (user : User)
    (commentId now content : String) :
    Store × Except ApiError CommentView :=
  match s.postRecord postId with
  | none => (s, .error .notFound)
  | some _ =>
    if content = "" then
      (s, .error .validationFailed)
    else
      let c : Comment :=
        { id := commentId, postId := postId, content := content
          authorId := userId, authorName := displayName user
          createdAt := now }
      let s1 := { s with commentRecord := upd s.commentRecord commentId (some c) }
      let s2 := { s1 with
        postComments := upd s1.postComments postId (lpush (s1.postComments postId) commentId) }
      let s3 := { s2 with
        userComments := upd s2.userComments userId (lpush (s2.userComments userId) commentId) }
      (s3, .ok { comment := c, likes := 0 })

/-- `handleLikePost`: 404 when the post is missing; `action` defaults to
`'like'`; like = SADD, unlike = SREM, anything else touches nothing; the
response carries the fresh SCARD and `isLiked = (action === 'like')`. -/
def handleLikePost (s : Store) (postId userId : String)
    (action : Option String) : Store × Except ApiError (Nat × Bool) :=
  match s.postRecord postId with
  | none => (s, .error .notFound)
  | some _ =>
    let act := action.getD "like"
    let current := s.postLikes postId
    let next :=
      if act = "like" then sadd current userId
      else if act = "unlike" then srem current userId
      else current
    let s1 := { s with postLikes := upd s.postLikes postId next }
    (s1, .ok (next.length, act = "like"))

/-- `handleBookmarkPost`: 404 when the post is missing; `action` defaults
to `'bookmark'`; bookmark = SADD into the caller's bookmark set,
unbookmark = SREM; response carries `isBookmarked = (action === 'bookmark')`. -/
def handleBookmarkPost (s : Store) (postId userId : String)
    (action : Option String) : Store × Except ApiError Bool :=
  match s.postRecord postId with
  | none => (s, .error .notFound)
  | some _ =>
    let act := action.getD "bookmark"
    let current := s.userBookmarks userId
    let next :=
      if act = "bookmark" then sadd current postId
      else if act = "unbookmark" then srem current postId
      else current
    let s1 := { s with userBookmarks := upd s.userBookmarks userId next }
    (s1, .ok (act = "bookmark"))

/-- Whether `pat` is a leading segment of `hay` (character lists). -/
def leadsChars : List Char → List Char → Bool
  | [], _ => true
  | _ :: _, [] => false
  | a :: as, b :: bs => a == b && leadsChars as bs

/-- Whether `pat` occurs somewhere inside the character list. -/
def occursChars (pat : List Char) : List Char → Bool
  | [] => leadsChars pat []
  | c :: rest => leadsChars pat (c :: rest) || occursChars pat rest

/-- JavaScript `hay.includes(pat)` on strings. -/
def strContains (hay pat : String) : Bool :=
  occursChars pat.data hay.data

/-- JavaScript `s.toLowerCase()`. -/
def lowerStr (s : String) : String := String.map Char.toLower s

/-- `tags.split(',').map(tag => tag.trim())`. -/
def splitTags (ts : String) : List String :=
  (ts.splitOn ",").map String.trim

/-- Query string of GET /community: every parameter optional. -/
structure ListQuery where
  search : Option String
  category : Option String
  tags : Option String
  bookmarked : Option String
  userId : Option String
  sortBy : Option String
  sortOrder : Option String
deriving Repr

/-- A post in the GET /community response: hash fields, derived counts,
and the caller-relative flags. -/
structure PostSummary where
  post : Post
  likes : Nat
  comments : Nat
  isLiked : Bool
  isBookmarked : Bool
deriving DecidableEq, Repr

/-- The bulk-load stage of `handleGetPosts`: walk the global id list,
fetch each hash, drop ids whose hash is missing, attach derived counts
and, when a truthy `userId` parameter is present, the isLiked /
isBookmarked membership tests. -/
def loadSummaries (s : Store) (userId : Option String) : List PostSummary :=
  s.posts.filterMap fun id =>
    (s.postRecord id).map fun p =>
      { post := p
        likes := (s.postLikes id).length
        comments := (s.postComments id).length
        isLiked := match truthy userId with
          | some u => (s.postLikes id).contains u
          | none => false
        isBookmarked := match truthy userId with
          | some u => (s.userBookmarks u).contains id
          | none => false }

/-- The search filter: case-insensitive substring match against title or
content; a missing/empty parameter keeps every post. -/
def matchesSearch (q : Option String) (p : PostSummary) : Bool :=
  match truthy q with
  | some str =>
      strContains (lowerStr p.post.title) (lowerStr str) ||
      strContains (lowerStr p.post.content) (lowerStr str)
  | none => true

/-- The category filter: exact equality with the parameter. -/
def matchesCategory (q : Option String) (p : PostSummary) : Bool :=
  match truthy q with
  | some c => p.post.category == c
  | none => true

/-- The tag filter: the post must carry at least one of the
comma-separated requested tags. -/
def matchesTags (q : Option String) (p : PostSummary) : Bool :=
  match truthy q with
  | some ts => p.post.tags.any fun t => (splitTags ts).contains t
  | none => true

/-- The bookmarked-only filter: applied only when `bookmarked === 'true'`
and a truthy `userId` is present; keeps posts in that user's bookmark set. -/
def matchesBookmarked (s : Store) (bookmarked userId : Option String)
    (p : PostSummary) : Bool :=
  if bookmarked = some "true" then
    match truthy userId with
    | some u => (s.userBookmarks u).contains p.post.id
    | none => true
  else true

/-- Dynamic field access `post[sortBy]` for the date branch of the
comparator; unknown keys behave as an undefined (empty) date string. -/
def dateFieldOf (p : Post) (k : String) : String :=
  if k = "createdAt" then p.createdAt
  else if k = "updatedAt" then p.updatedAt
  else ""

/-- The sort comparator of `handleGetPosts`; `dv` stands for JavaScript
`new Date(x).getTime()`. -/
def listCmp (sortBy sortOrder : String) (dv : String → Int)
    (a b : PostSummary) : Int :=
  if sortBy = "likes" then
    if sortOrder = "desc" then (b.likes : Int) - (a.likes : Int)
    else (a.likes : Int) - (b.likes : Int)
  else if sortBy = "comments" then
    if sortOrder = "desc" then (b.comments : Int) - (a.comments : Int)
    else (a.comments : Int) - (b.comments : Int)
  else
    if sortOrder = "desc" then
      dv (dateFieldOf b.post sortBy) - dv (dateFieldOf a.post sortBy)
    else
      dv (dateFieldOf a.post sortBy) - dv (dateFieldOf b.post sortBy)

/-- `handleGetPosts`: load all candidate summaries, apply the four
filters in sequence, then sort with the comparator (defaults:
`sortBy = 'createdAt'`, `sortOrder = 'desc'`). -/
def handleGetPosts (s : Store) (q : ListQuery) (dv : String → Int) :
    List PostSummary :=
  let sortBy := q.sortBy.getD "createdAt"
  let sortOrder := q.sortOrder.getD "desc"
  let loaded := loadSummaries s q.userId
  let f1 := loaded.filter (matchesSearch q.search)
  let f2 := f1.filter (matchesCategory q.category)
  let f3 := f2.filter (matchesTags q.tags)
  let f4 := f3.filter (matchesBookmarked s q.bookmarked q.userId)
  f4.insertionSort fun a b => listCmp sortBy sortOrder dv a b ≤ 0

/-- The arguments of one addComment request against a fixed post: caller
identity and profile, the fresh `nanoid()`, the timestamp, and the body. -/
structure CommentCall where
  userId : String
  user : User
  commentId : String
  now : String
  content : String

/-- A sequence of addComment calls on post `pid`, applied in order
through `handleCreateComment` (each call's store feeding the next). -/
def applyComments (s : Store) (pid : String) : List CommentCall → Store
  | [] => s
  | c :: rest =>
      applyComments
        (handleCreateComment s pid c.userId c.user c.commentId c.now c.content).1
        pid rest

/-- The CommentView a successful addComment call will later be listed as
(its like count read from the commentLikes set, untouched by creation). -/
def viewOfCall (s : Store) (pid : String) (c : CommentCall) : CommentView :=
  { comment := ⟨c.commentId, pid, c.content, c.userId, displayName c.user, c.now⟩,
    likes := (s.commentLikes c.commentId).length }

/-- The empty keyspace: no posts, no comments, every set and list empty. -/
def emptyStore : Store where
  posts := []
  postRecord := fun _ => none
  userPosts := fun _ => []
  categoryIdx := fun _ => []
  tagIdx := fun _ => []
  postLikes := fun _ => []
  postComments := fun _ => []
  commentRecord := fun _ => none
  commentLikes := fun _ => []
  userComments := fun _ => []
  userBookmarks := fun _ => []

/-- Test fixture: an ordinary member. -/
def demoUser : User := ⟨"Dana", "dana", "member"⟩

/-- Test fixture: a second ordinary member. -/
def demoUser2 : User := ⟨"Beck", "beck", "member"⟩

/-- Test fixture: the record stored for post `p1` of `demoStoreP`. -/
def demoPost : Post :=
  ⟨"p1", "T", "C", "discussion", ["a", "b"], "u1", "Dana", "t0", "t0"⟩

/-- Test fixture: the store after `u1` creates post `p1`
(title "T", content "C", default category, tags ["a","b"]). -/
def demoStoreP : Store :=
  (handleCreatePost emptyStore "u1" demoUser "p1" "t0"
    ⟨"T", "C", none, ["a", "b"]⟩).1

/-- Test fixture: `demoStoreP` after `u1` comments "first" on `p1`. -/
def demoStoreC1 : Store :=
  (handleCreateComment demoStoreP "p1" "u1" demoUser "c1" "t1" "first").1

/-- Test fixture: `demoStoreC1` after `u2` comments "second" on `p1`. -/
def demoStoreC2 : Store :=
  (handleCreateComment demoStoreC1 "p1" "u2" demoUser2 "c2" "t2" "second").1

/-! ### Lemmas about the store primitives -/

theorem upd_same {α : Type} (f : String → α) (k : String) (v : α) :
    upd f k v k = v := by
  simp [upd]

theorem upd_ne {α : Type} {x k : String} (f : String → α) (v : α)
    (h : x ≠ k) : upd f k v x = f x := by
  simp [upd, h]

theorem upd_upd_same {α : Type} (f : String → α) (k : String) (v w : α) :
    upd (upd f k v) k w = upd f k w := by
  funext x
  by_cases h : x = k <;> simp [upd, h]

theorem upd_self {α : Type} (f : String → α) (k : String) :
    upd f k (f k) = f := by
  funext x
  by_cases h : x = k <;> simp [upd, h]

theorem mem_sadd_self (s : List String) (x : String) : x ∈ sadd s x := by
  by_cases h : x ∈ s <;> simp [sadd, h]

theorem sadd_of_mem {s : List String} {x : String} (h : x ∈ s) :
    sadd s x = s := by
  simp [sadd, h]

theorem sadd_idem (s : List String) (x : String) :
    sadd (sadd s x) x = sadd s x :=
  sadd_of_mem (mem_sadd_self s x)

theorem not_mem_srem (s : List String) (x : String) : x ∉ srem s x := by
  simp [srem, List.mem_filter]

theorem srem_of_not_mem {s : List String} {x : String} (h : x ∉ s) :
    srem s x = s := by
  refine List.filter_eq_self.mpr fun a ha => ?_
  simp only [ne_eq, decide_eq_true_eq]
  rintro rfl
  exact h ha

theorem not_mem_lremAll (l : List String) (x : String) : x ∉ lremAll l x := by
  simp [lremAll, List.mem_filter]

theorem addTags_mem_of_mem {idx : String → List String} {pid t : String}
    (ts : List String) (h : pid ∈ idx t) : pid ∈ addTags idx pid ts t := by
  induction ts generalizing idx with
  | nil => exact h
  | cons t1 ts ih =>
    apply ih
    by_cases ht : t = t1
    · subst ht
      rw [upd_same]
      exact mem_sadd_self _ _
    · rw [upd_ne _ _ ht]
      exact h

theorem addTags_mem {idx : String → List String} {pid t : String}
    {ts : List String} (h : t ∈ ts) : pid ∈ addTags idx pid ts t := by
  induction ts generalizing idx with
  | nil => cases h
  | cons t1 ts ih =>
    simp only [addTags]
    rcases List.mem_cons.mp h with rfl | h2
    · apply addTags_mem_of_mem
      rw [upd_same]
      exact mem_sadd_self _ _
    · exact ih h2

theorem remTags_not_mem_of {idx : String → List String} {pid t : String}
    (ts : List String) (h : pid ∉ idx t) : pid ∉ remTags idx pid ts t := by
  induction ts generalizing idx with
  | nil => exact h
  | cons t1 ts ih =>
    apply ih
    by_cases ht : t = t1
    · subst ht
      rw [upd_same]
      exact not_mem_srem _ _
    · rw [upd_ne _ _ ht]
      exact h

theorem remTags_not_mem {idx : String → List String} {pid t : String}
    {ts : List String} (h : t ∈ ts) : pid ∉ remTags idx pid ts t := by
  induction ts generalizing idx with
  | nil => cases h
  | cons t1 ts ih =>
    simp only [remTags]
    rcases List.mem_cons.mp h with rfl | h2
    · apply remTags_not_mem_of
      rw [upd_same]
      exact not_mem_srem _ _
    · exact ih h2

/-! ### Claim theorems -/

/-- C2: every successful createPost leaves the new id in the global post
list, the author's post list, the set of the post's category, and the tag
set of each tag of the post. -/
theorem createPost_registers_all_indices (s : Store) (userId : String)
    (user : User) (postId now : String) (req : CreatePostReq)
    (ht : req.title ≠ "") (hc : req.content ≠ "") :
    ∃ p : Post,
      (handleCreatePost s userId user postId now req).2 =
        .ok { post := p, likes := 0, comments := 0 } ∧
      postId ∈ (handleCreatePost s userId user postId now req).1.posts ∧
      postId ∈ (handleCreatePost s userId user postId now req).1.userPosts userId ∧
      postId ∈ (handleCreatePost s userId user postId now req).1.categoryIdx p.category ∧
      ∀ t ∈ p.tags, postId ∈ (handleCreatePost s userId user postId now req).1.tagIdx t := by
  unfold handleCreatePost
  rw [if_neg (not_or.mpr ⟨ht, hc⟩)]
  refine ⟨_, rfl, ?_, ?_, ?_, ?_⟩
  · exact List.mem_cons_self _ _
  · show postId ∈ upd s.userPosts userId (lpush (s.userPosts userId) postId) userId
    rw [upd_same]
    exact List.mem_cons_self _ _
  · show postId ∈ upd s.categoryIdx (req.category.getD "discussion")
      (sadd (s.categoryIdx (req.category.getD "discussion")) postId)
      (req.category.getD "discussion")
    rw [upd_same]
    exact mem_sadd_self _ _
  · intro t htm
    exact addTags_mem htm

/-- C2 witness: creating post `p1` with tags ["a","b"] from the empty
store indexes it everywhere. -/
theorem createPost_registers_all_indices_witness :
    ∃ p : Post,
      (handleCreatePost emptyStore "u1" demoUser "p1" "t0"
        ⟨"T", "C", none, ["a", "b"]⟩).2 =
        .ok { post := p, likes := 0, comments := 0 } ∧
      "p1" ∈ (handleCreatePost emptyStore "u1" demoUser "p1" "t0"
        ⟨"T", "C", none, ["a", "b"]⟩).1.posts ∧
      "p1" ∈ (handleCreatePost emptyStore "u1" demoUser "p1" "t0"
        ⟨"T", "C", none, ["a", "b"]⟩).1.userPosts "u1" ∧
      "p1" ∈ (handleCreatePost emptyStore "u1" demoUser "p1" "t0"
        ⟨"T", "C", none, ["a", "b"]⟩).1.categoryIdx p.category ∧
      ∀ t ∈ p.tags, "p1" ∈ (handleCreatePost emptyStore "u1" demoUser "p1" "t0"
        ⟨"T", "C", none, ["a", "b"]⟩).1.tagIdx t :=
  createPost_registers_all_indices emptyStore "u1" demoUser "p1" "t0"
    ⟨"T", "C", none, ["a", "b"]⟩ (by decide) (by decide)

/-- C1: an authorized deletePost removes the id from the global list, the
author's list, the stored category set, every stored tag set and every
user's bookmark set, deletes the record, likes set and comments list, and
a subsequent getPost answers NotFound. -/
theorem deletePost_removes_everywhere (s : Store) (postId userId : String)
    (user : User) (p : Post)
    (hrec : s.postRecord postId = some p)
    (hauth : p.authorId = userId ∨ user.role = "admin") :
    (handleDeletePost s postId userId user).2 = .ok () ∧
    (handleDeletePost s postId userId user).1.postRecord postId = none ∧
    postId ∉ (handleDeletePost s postId userId user).1.posts ∧
    postId ∉ (handleDeletePost s postId userId user).1.userPosts p.authorId ∧
    postId ∉ (handleDeletePost s postId userId user).1.categoryIdx p.category ∧
    (∀ t ∈ p.tags, postId ∉ (handleDeletePost s postId userId user).1.tagIdx t) ∧
    (handleDeletePost s postId userId user).1.postLikes postId = [] ∧
    (handleDeletePost s postId userId user).1.postComments postId = [] ∧
    (∀ u, postId ∉ (handleDeletePost s postId userId user).1.userBookmarks u) ∧
    handleGetPost (handleDeletePost s postId userId user).1 postId = .error .notFound := by
  have hcond : ¬(p.authorId ≠ userId ∧ user.role ≠ "admin") := by
    rcases hauth with h | h
    · exact fun hh => hh.1 h
    · exact fun hh => hh.2 h
  unfold handleDeletePost
  rw [hrec]
  dsimp only
  rw [if_neg hcond]
  refine ⟨rfl, upd_same _ _ _, not_mem_lremAll _ _, ?_, ?_, ?_, upd_same _ _ _,
    upd_same _ _ _, fun u => not_mem_srem _ _, ?_⟩
  · show postId ∉ upd s.userPosts p.authorId
      (lremAll (s.userPosts p.authorId) postId) p.authorId
    rw [upd_same]
    exact not_mem_lremAll _ _
  · show postId ∉ upd s.categoryIdx p.category
      (srem (s.categoryIdx p.category) postId) p.category
    rw [upd_same]
    exact not_mem_srem _ _
  · intro t htm
    exact remTags_not_mem htm
  · unfold handleGetPost
    dsimp only
    rw [upd_same]

/-- C1 witness: the author deletes the fixture post `p1`; every index and
derived structure is cleaned up and getPost answers NotFound. -/
theorem deletePost_removes_everywhere_witness :
    (handleDeletePost demoStoreP "p1" "u1" demoUser).2 = .ok () ∧
    (handleDeletePost demoStoreP "p1" "u1" demoUser).1.postRecord "p1" = none ∧
    "p1" ∉ (handleDeletePost demoStoreP "p1" "u1" demoUser).1.posts ∧
    "p1" ∉ (handleDeletePost demoStoreP "p1" "u1" demoUser).1.userPosts demoPost.authorId ∧
    "p1" ∉ (handleDeletePost demoStoreP "p1" "u1" demoUser).1.categoryIdx demoPost.category ∧
    (∀ t ∈ demoPost.tags, "p1" ∉ (handleDeletePost demoStoreP "p1" "u1" demoUser).1.tagIdx t) ∧
    (handleDeletePost demoStoreP "p1" "u1" demoUser).1.postLikes "p1" = [] ∧
    (handleDeletePost demoStoreP "p1" "u1" demoUser).1.postComments "p1" = [] ∧
    (∀ u, "p1" ∉ (handleDeletePost demoStoreP "p1" "u1" demoUser).1.userBookmarks u) ∧
    handleGetPost (handleDeletePost demoStoreP "p1" "u1" demoUser).1 "p1" = .error .notFound :=
  deletePost_removes_everywhere demoStoreP "p1" "u1" demoUser demoPost
    (by decide) (Or.inl (by decide))

/-- C9: an existing post plus a caller who is neither its author nor an
admin: updatePost and deletePost answer Forbidden and return the store
untouched. -/
theorem unauthorized_update_delete_rejected (s : Store) (postId userId : String)
    (user : User) (now : String) (req : UpdatePostReq) (p : Post)
    (hrec : s.postRecord postId = some p)
    (h1 : p.authorId ≠ userId) (h2 : user.role ≠ "admin") :
    handleUpdatePost s postId userId user now req = (s, .error .forbidden) ∧
    handleDeletePost s postId userId user = (s, .error .forbidden) := by
  constructor
  · unfold handleUpdatePost
    rw [hrec]
    dsimp only
    rw [if_pos ⟨h1, h2⟩]
  · unfold handleDeletePost
    rw [hrec]
    dsimp only
    rw [if_pos ⟨h1, h2⟩]

/-- C9 witness: `u2` (a plain member, not the author) can neither update
nor delete the fixture post `p1`. -/
theorem unauthorized_update_delete_rejected_witness :
    handleUpdatePost demoStoreP "p1" "u2" demoUser2 "t9"
        ⟨some "X", none, none, none⟩ = (demoStoreP, .error .forbidden) ∧
    handleDeletePost demoStoreP "p1" "u2" demoUser2 = (demoStoreP, .error .forbidden) :=
  unauthorized_update_delete_rejected demoStoreP "p1" "u2" demoUser2 "t9"
    ⟨some "X", none, none, none⟩ demoPost (by decide) (by decide) (by decide)

/-- Evaluation of `handleLikePost` with action `like` on an existing post:
SADD the caller into the likes set. -/
theorem likePost_like_eq (s : Store) (postId userId : String) (p : Post)
    (hrec : s.postRecord postId = some p) :
    handleLikePost s postId userId (some "like") =
      ({ s with postLikes := upd s.postLikes postId (sadd (s.postLikes postId) userId) },
       .ok ((sadd (s.postLikes postId) userId).length, true)) := by
  unfold handleLikePost
  rw [hrec]
  dsimp only
  simp

/-- C7: liking twice equals liking once (same store, same reported count),
and unliking while not in the likes set changes nothing. -/
theorem setLike_idempotent (s : Store) (postId userId : String) (p : Post)
    (hrec : s.postRecord postId = some p) :
    handleLikePost (handleLikePost s postId userId (some "like")).1
        postId userId (some "like")
      = handleLikePost s postId userId (some "like") ∧
    (userId ∉ s.postLikes postId →
      handleLikePost s postId userId (some "unlike")
        = (s, .ok ((s.postLikes postId).length, false))) := by
  constructor
  · rw [likePost_like_eq s postId userId p hrec]
    dsimp only
    have h2 := likePost_like_eq
      { s with postLikes := upd s.postLikes postId (sadd (s.postLikes postId) userId) }
      postId userId p hrec
    rw [h2]
    dsimp only
    rw [upd_same, sadd_idem, upd_upd_same]
  · intro hnot
    unfold handleLikePost
    rw [hrec]
    dsimp only
    simp [srem_of_not_mem hnot, upd_self]

/-- C7 witness: on the fixture post `p1` (empty likes set), a double like
by `u2` equals a single like, and an unlike by `u2` is a no-op. -/
theorem setLike_idempotent_witness :
    handleLikePost (handleLikePost demoStoreP "p1" "u2" (some "like")).1
        "p1" "u2" (some "like")
      = handleLikePost demoStoreP "p1" "u2" (some "like") ∧
    ("u2" ∉ demoStoreP.postLikes "p1" →
      handleLikePost demoStoreP "p1" "u2" (some "unlike")
        = (demoStoreP, .ok ((demoStoreP.postLikes "p1").length, false))) :=
  setLike_idempotent demoStoreP "p1" "u2" demoPost (by decide)

/-- C8: createPost with tags [t1, t2] followed by getPost on the fresh id
returns the same title, content and tags, with zero likes and comments. -/
theorem createPost_getPost_roundtrip (s : Store) (userId : String)
    (user : User) (postId now title content t1 t2 : String)
    (ht : title ≠ "") (hc : content ≠ "")
    (hl : s.postLikes postId = []) (hcm : s.postComments postId = []) :
    handleGetPost
        (handleCreatePost s userId user postId now ⟨title, content, none, [t1, t2]⟩).1
        postId
      = .ok { post := { id := postId, title := title, content := content,
                        category := "discussion", tags := [t1, t2],
                        authorId := userId, authorName := displayName user,
                        createdAt := now, updatedAt := now },
              likes := 0, comments := 0 } := by
  unfold handleCreatePost
  rw [if_neg (not_or.mpr ⟨ht, hc⟩)]
  unfold handleGetPost
  dsimp only
  rw [upd_same, hl, hcm]
  rfl

/-- C8 witness: the round trip at title "T", content "C", tags
["a","b"] from the empty store. -/
theorem createPost_getPost_roundtrip_witness :
    handleGetPost
        (handleCreatePost emptyStore "u1" demoUser "p1" "t0" ⟨"T", "C", none, ["a", "b"]⟩).1
        "p1"
      = .ok { post := { id := "p1", title := "T", content := "C",
                        category := "discussion", tags := ["a", "b"],
                        authorId := "u1", authorName := displayName demoUser,
                        createdAt := "t0", updatedAt := "t0" },
              likes := 0, comments := 0 } :=
  createPost_getPost_roundtrip emptyStore "u1" demoUser "p1" "t0" "T" "C" "a" "b"
    (by decide) (by decide) rfl rfl

/-- C6 counterexample: a category string outside any fixed enumeration
("not-a-category") is stored and indexed verbatim, not replaced by the
"discussion" fallback. -/
theorem createPost_keeps_unknown_category :
    (handleCreatePost emptyStore "u1" demoUser "p2" "t0"
        ⟨"T", "C", some "not-a-category", []⟩).2
      = .ok { post := { id := "p2", title := "T", content := "C",
                        category := "not-a-category", tags := [],
                        authorId := "u1", authorName := "Dana",
                        createdAt := "t0", updatedAt := "t0" },
              likes := 0, comments := 0 } ∧
    (handleCreatePost emptyStore "u1" demoUser "p2" "t0"
        ⟨"T", "C", some "not-a-category", []⟩).1.categoryIdx "not-a-category" = ["p2"] ∧
    "not-a-category" ≠ "discussion" :=
  ⟨rfl, rfl, by decide⟩

/-- C6 amended: the stored category is the request's category verbatim
when one is supplied, and "discussion" only when the field is absent. -/
theorem createPost_category_verbatim_or_default (s : Store) (userId : String)
    (user : User) (postId now : String) (req : CreatePostReq)
    (ht : req.title ≠ "") (hc : req.content ≠ "") :
    ∃ p : Post,
      (handleCreatePost s userId user postId now req).2 =
        .ok { post := p, likes := 0, comments := 0 } ∧
      (handleCreatePost s userId user postId now req).1.postRecord postId = some p ∧
      p.category = req.category.getD "discussion" := by
  unfold handleCreatePost
  rw [if_neg (not_or.mpr ⟨ht, hc⟩)]
  exact ⟨_, rfl, upd_same _ _ _, rfl⟩

/-- C6 amended witness: category "zzz" is stored as given. -/
theorem createPost_category_verbatim_or_default_witness :
    ∃ p : Post,
      (handleCreatePost emptyStore "u1" demoUser "p9" "t0"
          ⟨"T", "C", some "zzz", []⟩).2 =
        .ok { post := p, likes := 0, comments := 0 } ∧
      (handleCreatePost emptyStore "u1" demoUser "p9" "t0"
          ⟨"T", "C", some "zzz", []⟩).1.postRecord "p9" = some p ∧
      p.category = (some "zzz").getD "discussion" :=
  createPost_category_verbatim_or_default emptyStore "u1" demoUser "p9" "t0"
    ⟨"T", "C", some "zzz", []⟩ (by decide) (by decide)

/-- C5 counterexample: a title that is whitespace only (so empty after
trimming) is accepted: the post is created and written to the store, not
rejected with ValidationFailed. -/
theorem createPost_accepts_whitespace_title :
    (handleCreatePost emptyStore "u1" demoUser "p3" "t0"
        ⟨" ", "body", none, []⟩).2
      = .ok { post := { id := "p3", title := " ", content := "body",
                        category := "discussion", tags := [],
                        authorId := "u1", authorName := "Dana",
                        createdAt := "t0", updatedAt := "t0" },
              likes := 0, comments := 0 } ∧
    (handleCreatePost emptyStore "u1" demoUser "p3" "t0"
        ⟨" ", "body", none, []⟩).1.posts = ["p3"] :=
  ⟨rfl, rfl⟩

/-- C5 amended: createPost rejects with ValidationFailed (writing
nothing) exactly when title or content is the empty string (no trimming),
and addComment likewise for empty comment content. -/
theorem validation_rejects_exactly_empty (s : Store) (userId : String)
    (user : User) (postId now : String) (req : CreatePostReq)
    (s2 : Store) (pid2 uid2 : String) (user2 : User) (cid now2 : String)
    (p2 : Post)
    (hv : req.title = "" ∨ req.content = "")
    (hrec : s2.postRecord pid2 = some p2) :
    handleCreatePost s userId user postId now req = (s, .error .validationFailed) ∧
    handleCreateComment s2 pid2 uid2 user2 cid now2 "" = (s2, .error .validationFailed) := by
  constructor
  · unfold handleCreatePost
    rw [if_pos hv]
  · unfold handleCreateComment
    rw [hrec]
    rfl

/-- C5 amended witness: an empty title is rejected by createPost and an
empty comment body is rejected by addComment, with no store write. -/
theorem validation_rejects_exactly_empty_witness :
    handleCreatePost emptyStore "u1" demoUser "p4" "t0" ⟨"", "body", none, []⟩
      = (emptyStore, .error .validationFailed) ∧
    handleCreateComment demoStoreP "p1" "u2" demoUser2 "c9" "t9" ""
      = (demoStoreP, .error .validationFailed) :=
  validation_rejects_exactly_empty emptyStore "u1" demoUser "p4" "t0"
    ⟨"", "body", none, []⟩ demoStoreP "p1" "u2" demoUser2 "c9" "t9" demoPost
    (Or.inl rfl) (by decide)

/-- C10: an authorized updatePost whose body carries an empty string for
title or content leaves that stored field unchanged (empty is falsy, like
an absent field) while updatedAt is refreshed. -/
theorem updatePost_blank_fields_preserved (s : Store) (postId userId : String)
    (user : User) (now : String) (req : UpdatePostReq) (p : Post)
    (hrec : s.postRecord postId = some p)
    (hauth : p.authorId = userId ∨ user.role = "admin") :
    ∃ p' : Post,
      (handleUpdatePost s postId userId user now req).1.postRecord postId = some p' ∧
      p'.updatedAt = now ∧
      (req.title = some "" → p'.title = p.title) ∧
      (req.content = some "" → p'.content = p.content) := by
  have hcond : ¬(p.authorId ≠ userId ∧ user.role ≠ "admin") := by
    rcases hauth with h | h
    · exact fun hh => hh.1 h
    · exact fun hh => hh.2 h
  obtain ⟨rT, rC, rCat, rTags⟩ := req
  unfold handleUpdatePost
  rw [hrec]
  dsimp only
  rw [if_neg hcond]
  dsimp only
  refine ⟨_, upd_same _ _ _, ?_, ?_, ?_⟩
  · repeat' split
    all_goals rfl
  · rintro rfl
    have htr : truthy (some "") = none := rfl
    rw [htr]
    dsimp only
    repeat' split
    all_goals rfl
  · rintro rfl
    have htr : truthy (some "") = none := rfl
    rw [htr]
    dsimp only
    repeat' split
    all_goals rfl

/-- C10 witness: updating `p1` with empty title and content strings keeps
"T" and "C" and refreshes updatedAt to "t5". -/
theorem updatePost_blank_fields_preserved_witness :
    ∃ p' : Post,
      (handleUpdatePost demoStoreP "p1" "u1" demoUser "t5"
          ⟨some "", some "", none, none⟩).1.postRecord "p1" = some p' ∧
      p'.updatedAt = "t5" ∧
      ((some "" : Option String) = some "" → p'.title = demoPost.title) ∧
      ((some "" : Option String) = some "" → p'.content = demoPost.content) :=
  updatePost_blank_fields_preserved demoStoreP "p1" "u1" demoUser "t5"
    ⟨some "", some "", none, none⟩ demoPost (by decide) (Or.inl (by decide))

/-- C4 counterexample: on the fixture post with comments added in the
order c1 ("first") then c2 ("second"), listComments returns c2 before c1
-- the reverse of insertion order claimed by the spec. -/
theorem listComments_not_insertion_order :
    handleGetComments demoStoreC2 "p1" =
      .ok [{ comment := ⟨"c2", "p1", "second", "u2", "Beck", "t2"⟩, likes := 0 },
           { comment := ⟨"c1", "p1", "first", "u1", "Dana", "t1"⟩, likes := 0 }] ∧
    ([{ comment := ⟨"c2", "p1", "second", "u2", "Beck", "t2"⟩, likes := 0 },
      { comment := ⟨"c1", "p1", "first", "u1", "Dana", "t1"⟩, likes := 0 }] : List CommentView) ≠
      [{ comment := ⟨"c1", "p1", "first", "u1", "Dana", "t1"⟩, likes := 0 },
       { comment := ⟨"c2", "p1", "second", "u2", "Beck", "t2"⟩, likes := 0 }] :=
  ⟨rfl, by decide⟩

/-- One addComment call on an existing post prepends the new comment to
the listComments result and leaves the previous listing as the tail. -/
theorem getComments_after_create (s : Store) (pid : String) (p : Post)
    (uid : String) (usr : User) (cid now body : String) (old : List CommentView)
    (hrec : s.postRecord pid = some p)
    (hold : handleGetComments s pid = .ok old)
    (hbody : body ≠ "")
    (hfresh : cid ∉ s.postComments pid) :
    handleGetComments (handleCreateComment s pid uid usr cid now body).1 pid
      = .ok ({ comment := ⟨cid, pid, body, uid, displayName usr, now⟩,
               likes := (s.commentLikes cid).length } :: old) := by
  have hold2 : ((s.postComments pid).filterMap fun cid0 =>
      (s.commentRecord cid0).map fun c =>
        ({ comment := c, likes := (s.commentLikes cid0).length } : CommentView)) = old := by
    unfold handleGetComments at hold
    rw [hrec] at hold
    dsimp only at hold
    exact Except.ok.inj hold
  have htail : ((s.postComments pid).filterMap fun cid0 =>
      (upd s.commentRecord cid
        (some ⟨cid, pid, body, uid, displayName usr, now⟩) cid0).map fun c =>
        ({ comment := c, likes := (s.commentLikes cid0).length } : CommentView)) = old := by
    rw [← hold2]
    apply List.filterMap_congr
    intro a ha
    have hne : a ≠ cid := fun he => hfresh (he ▸ ha)
    rw [upd_ne _ _ hne]
  unfold handleCreateComment
  rw [hrec]
  dsimp only
  rw [if_neg hbody]
  unfold handleGetComments
  dsimp only
  rw [hrec]
  dsimp only
  rw [upd_same]
  show Except.ok (List.filterMap _ (cid :: s.postComments pid)) = _
  rw [List.filterMap_cons]
  rw [upd_same]
  dsimp only [Option.map_some']
  rw [htail]

/-- C4 amended: listComments returns the comments in reverse order of
creation -- after any sequence of successful addComment calls (fresh,
pairwise-distinct ids, non-empty bodies), the listing is the new comments
latest-first, followed by the previous listing unchanged.  In particular
a post with two or more comments shows the latest-added comment first,
not the earliest. -/
theorem listComments_reverse_of_creation (s : Store) (pid : String) (p : Post)
    (calls : List CommentCall) (old : List CommentView)
    (hrec : s.postRecord pid = some p)
    (hold : handleGetComments s pid = .ok old)
    (hbody : ∀ c ∈ calls, c.content ≠ "")
    (hfresh : ∀ c ∈ calls, c.commentId ∉ s.postComments pid)
    (hdist : (calls.map CommentCall.commentId).Nodup) :
    handleGetComments (applyComments s pid calls) pid
      = .ok ((calls.map (viewOfCall s pid)).reverse ++ old) := by
  induction calls generalizing s old with
  | nil => simpa using hold
  | cons c calls ih =>
    have hb : c.content ≠ "" := hbody c (List.mem_cons_self _ _)
    have hf : c.commentId ∉ s.postComments pid := hfresh c (List.mem_cons_self _ _)
    have hstep := getComments_after_create s pid p c.userId c.user c.commentId
      c.now c.content old hrec hold hb hf
    have hs1 : (handleCreateComment s pid c.userId c.user c.commentId c.now c.content).1 =
        { s with
          commentRecord := upd s.commentRecord c.commentId
            (some ⟨c.commentId, pid, c.content, c.userId, displayName c.user, c.now⟩),
          postComments := upd s.postComments pid (lpush (s.postComments pid) c.commentId),
          userComments := upd s.userComments c.userId
            (lpush (s.userComments c.userId) c.commentId) } := by
      unfold handleCreateComment
      rw [hrec]
      dsimp only
      rw [if_neg hb]
    rw [hs1] at hstep
    have hnodup : (∀ x ∈ calls, ¬x.commentId = c.commentId) ∧
        (calls.map CommentCall.commentId).Nodup := by
      simpa using hdist
    have hfresh2 : ∀ c2 ∈ calls,
        c2.commentId ∉ upd s.postComments pid (lpush (s.postComments pid) c.commentId) pid := by
      intro c2 hc2
      rw [upd_same]
      intro hmem
      rcases List.mem_cons.mp hmem with heq | hmem2
      · exact hnodup.1 c2 hc2 heq
      · exact hfresh c2 (List.mem_cons_of_mem _ hc2) hmem2
    have happ := ih
      { s with
        commentRecord := upd s.commentRecord c.commentId
          (some ⟨c.commentId, pid, c.content, c.userId, displayName c.user, c.now⟩),
        postComments := upd s.postComments pid (lpush (s.postComments pid) c.commentId),
        userComments := upd s.userComments c.userId
          (lpush (s.userComments c.userId) c.commentId) }
      (viewOfCall s pid c :: old) hrec hstep
      (fun c2 hc2 => hbody c2 (List.mem_cons_of_mem _ hc2)) hfresh2 hnodup.2
    rw [List.map_cons, List.reverse_cons, List.append_assoc]
    simp only [applyComments]
    rw [hs1]
    exact happ

/-- C4 amended witness: two comment calls on the fixture post come back
reversed (latest first). -/
theorem listComments_reverse_of_creation_witness :
    handleGetComments (applyComments demoStoreP "p1"
        [⟨"u1", demoUser, "c1", "t1", "first"⟩,
         ⟨"u2", demoUser2, "c2", "t2", "second"⟩]) "p1"
      = .ok (([⟨"u1", demoUser, "c1", "t1", "first"⟩,
               ⟨"u2", demoUser2, "c2", "t2", "second"⟩].map
                (viewOfCall demoStoreP "p1")).reverse ++ []) :=
  listComments_reverse_of_creation demoStoreP "p1" demoPost
    [⟨"u1", demoUser, "c1", "t1", "first"⟩,
     ⟨"u2", demoUser2, "c2", "t2", "second"⟩] []
    (by decide) rfl (by decide) (by decide) (by decide)

/-- The search filter keeps exactly the posts matching the (given) search
string case-insensitively in title or content. -/
theorem matchesSearch_true_iff (q : Option String) (p : PostSummary) :
    matchesSearch q p = true ↔
      ∀ str, truthy q = some str →
        (strContains (lowerStr p.post.title) (lowerStr str) = true ∨
         strContains (lowerStr p.post.content) (lowerStr str) = true) := by
  unfold matchesSearch
  rcases h : truthy q with _ | str
  · simp
  · simp [Bool.or_eq_true]

/-- The category filter keeps exactly the posts whose category equals the
given one. -/
theorem matchesCategory_true_iff (q : Option String) (p : PostSummary) :
    matchesCategory q p = true ↔ ∀ c, truthy q = some c → p.post.category = c := by
  unfold matchesCategory
  rcases h : truthy q with _ | c
  · simp
  · simp

/-- The tag filter keeps exactly the posts having at least one of the
requested tags. -/
theorem matchesTags_true_iff (q : Option String) (p : PostSummary) :
    matchesTags q p = true ↔
      ∀ ts, truthy q = some ts → ∃ t ∈ p.post.tags, t ∈ splitTags ts := by
  unfold matchesTags
  rcases h : truthy q with _ | ts
  · simp
  · simp [List.any_eq_true]

/-- The bookmarked-only filter keeps exactly the posts in the caller's
bookmark set (when requested with a truthy userId). -/
theorem matchesBookmarked_true_iff (s : Store) (bq uq : Option String)
    (p : PostSummary) :
    matchesBookmarked s bq uq p = true ↔
      (bq = some "true" → ∀ u, truthy uq = some u → p.post.id ∈ s.userBookmarks u) := by
  unfold matchesBookmarked
  by_cases hb : bq = some "true"
  · rcases h : truthy uq with _ | u <;> simp [hb, h]
  · simp [hb]

/-- C3: a post is in the listPosts result exactly when it is a loaded
candidate AND it passes every given filter, the tag filter being
satisfied by at least one requested tag (OR across requested tags, AND
with the other filters). -/
theorem listPosts_conjunctive_filters (s : Store) (q : ListQuery)
    (dv : String → Int) (p : PostSummary) :
    p ∈ handleGetPosts s q dv ↔
      p ∈ loadSummaries s q.userId ∧
      (∀ str, truthy q.search = some str →
        (strContains (lowerStr p.post.title) (lowerStr str) = true ∨
         strContains (lowerStr p.post.content) (lowerStr str) = true)) ∧
      (∀ c, truthy q.category = some c → p.post.category = c) ∧
      (∀ ts, truthy q.tags = some ts → ∃ t ∈ p.post.tags, t ∈ splitTags ts) ∧
      (q.bookmarked = some "true" →
        ∀ u, truthy q.userId = some u → p.post.id ∈ s.userBookmarks u) := by
  unfold handleGetPosts
  dsimp only
  rw [List.mem_insertionSort]
  simp only [List.mem_filter, matchesSearch_true_iff, matchesCategory_true_iff,
    matchesTags_true_iff, matchesBookmarked_true_iff, and_assoc]

end CommunityBoard
